import Mathlib

/- Shallow embedding of the video timeline indexer and clip resolver of the
   nfl-clip-coach repository (backend/services/video_clip/indexer.py and
   backend/services/video_clip/service.py).

   Modelling conventions:
   * Python floats are modelled as rationals (all arithmetic used by this code
     is +, -, *, /, min, max and comparisons, which floats perform exactly on
     the magnitudes involved and rationals model faithfully).
   * Python dicts are association lists with in-place update on an existing
     key and append on a new key (insertion order preserved, like dict).
   * The Gemini clock-reading oracle (extract_frame + read_game_clock) is a
     pure function from a video offset to an optional clock reading, and the
     video duration is a parameter; each in-bounds probe counts as one oracle
     call.  A frame-extraction failure is modelled by the oracle returning
     none at that offset, which the Python code treats the same way.
   * The cache file is modelled by the `saved` field of `VideoIndex`:
     VideoIndex.save copies the in-memory data into it.
   * Python exceptions are an explicit `Except` result (`PyError`). -/

/-- A game clock reading from a video frame (indexer.py, class GameClock). -/
structure GameClock where
  quarter : Nat
  minutes : Nat
  seconds : Nat
deriving DecidableEq, Repr

/-- GameClock.time_str: "M:SS" with zero-padded seconds. -/
def GameClock.time_str (c : GameClock) : String :=
  toString c.minutes ++ ":" ++
    (if c.seconds < 10 then "0" ++ toString c.seconds else toString c.seconds)

/-- GameClock.total_seconds: seconds remaining in the quarter. -/
def GameClock.total_seconds (c : GameClock) : Int :=
  (c.minutes : Int) * 60 + (c.seconds : Int)

/-- Dict lookup on an association list. -/
def lookupAssoc {α β : Type} [DecidableEq α] : List (α × β) → α → Option β
  | [], _ => none
  | (k', v') :: t, k => if k' = k then some v' else lookupAssoc t k

/-- Dict assignment: replace the value of an existing key in place, else
    append the new entry (Python dict insertion-order semantics). -/
def updateAssoc {α β : Type} [DecidableEq α] : List (α × β) → α → β → List (α × β)
  | [], k, v => [(k, v)]
  | (k', v') :: t, k, v => if k' = k then (k, v) :: t else (k', v') :: updateAssoc t k v

/-- Python round-half-to-even of a rational to an integer. -/
def roundHalfEven (q : ℚ) : Int :=
  let f := Int.floor q
  let r := q - (f : ℚ)
  if r < 1/2 then f
  else if 1/2 < r then f + 1
  else if f % 2 = 0 then f else f + 1

/-- Python round(x, 1) (one decimal digit, ties to even). -/
def roundTenth (q : ℚ) : ℚ :=
  ((roundHalfEven (q * 10) : ℚ)) / 10

/-- The four persisted fields of VideoIndex (indexer.py 52–99).  Known-frame
    keys are the offset rounded to 0.1 s (Python stringifies the rounded
    float; the string is injective on those values so the rational is kept). -/
structure IndexData where
  quarters : List (Nat × ℚ)
  mappings : List (String × ℚ)
  known_frames : List (ℚ × Nat × String)
  dead_zones : List (ℚ × ℚ)
deriving DecidableEq, Repr

/-- In-memory index (`data`) plus the last state written to the cache file
    (`saved`).  At construction VideoIndex._load makes them coincide. -/
structure VideoIndex where
  data : IndexData
  saved : IndexData
deriving DecidableEq, Repr

/-- VideoIndex.save: full-state overwrite of the cache file. -/
def VideoIndex.save (idx : VideoIndex) : VideoIndex :=
  { idx with saved := idx.data }

/-- VideoIndex.add_known_frame (indexer.py 101–106): record a successful
    frame reading keyed by the offset rounded to 0.1 s.  No save. -/
def VideoIndex.add_known_frame (idx : VideoIndex) (vod_seconds : ℚ) (quarter : Nat)
    (game_time : String) : VideoIndex :=
  { idx with data := { idx.data with known_frames :=
      (updateAssoc idx.data.known_frames (roundTenth vod_seconds) (quarter, game_time)) } }

/-- The merge pass of VideoIndex.add_dead_zone (indexer.py 111–120): scan the
    existing zones; keep a zone when it is more than 10 s away from the
    (growing) new zone on either side, otherwise absorb it into the new zone.
    Returns (final new zone, kept zones in original order). -/
def add_dead_zone_merge : List (ℚ × ℚ) → (ℚ × ℚ) → (ℚ × ℚ) × List (ℚ × ℚ)
  | [], nz => (nz, [])
  | z :: zones, nz =>
    if z.2 < nz.1 - 10 ∨ z.1 > nz.2 + 10 then
      let r := add_dead_zone_merge zones nz
      (r.1, z :: r.2)
    else
      add_dead_zone_merge zones (min z.1 nz.1, max z.2 nz.2)

/-- Stable insertion into a list sorted by interval start. -/
def sort_zones_insert (z : ℚ × ℚ) : List (ℚ × ℚ) → List (ℚ × ℚ)
  | [] => [z]
  | w :: t => if w.1 ≤ z.1 then w :: sort_zones_insert z t else z :: w :: t

/-- Python sorted(·, key=start) (stable; equal to any sort by start when
    starts are distinct). -/
def sort_zones : List (ℚ × ℚ) → List (ℚ × ℚ)
  | [] => []
  | z :: t => sort_zones_insert z (sort_zones t)

/-- VideoIndex.add_dead_zone on the dead-zone list (indexer.py 108–121). -/
def add_dead_zone_list (zones : List (ℚ × ℚ)) (start stop : ℚ) : List (ℚ × ℚ) :=
  let r := add_dead_zone_merge zones (start, stop)
  sort_zones (r.2 ++ [r.1])

/-- VideoIndex.add_dead_zone (mutates the in-memory index only; no save). -/
def VideoIndex.add_dead_zone (idx : VideoIndex) (start stop : ℚ) : VideoIndex :=
  { idx with data := { idx.data with dead_zones :=
      (add_dead_zone_list idx.data.dead_zones start stop) } }

/-- VideoIndex.is_in_dead_zone (indexer.py 123–128). -/
def is_in_dead_zone (zones : List (ℚ × ℚ)) (vod_seconds : ℚ) : Bool :=
  zones.any (fun z => decide (z.1 ≤ vod_seconds) && decide (vod_seconds ≤ z.2))

/-- VideoIndex.is_indexed: at least one quarter start is known. -/
def is_indexed (d : IndexData) : Bool :=
  decide (0 < d.quarters.length)

/-- VideoIndex.set_quarter_start (indexer.py 141–142).  No save. -/
def VideoIndex.set_quarter_start (idx : VideoIndex) (quarter : Nat) (vod_seconds : ℚ) :
    VideoIndex :=
  { idx with data := { idx.data with quarters :=
      (updateAssoc idx.data.quarters quarter vod_seconds) } }

/-- VideoIndex.get_quarter_start: self.quarters.get(quarter). -/
def get_quarter_start (d : IndexData) (quarter : Nat) : Option ℚ :=
  lookupAssoc d.quarters quarter

/-- Sorted insertion of a natural number. -/
def insert_sorted_nat (n : Nat) : List Nat → List Nat
  | [] => [n]
  | m :: t => if m ≤ n then m :: insert_sorted_nat n t else n :: m :: t

/-- Python sorted(·) on the quarter keys. -/
def sort_nats : List Nat → List Nat
  | [] => []
  | n :: t => insert_sorted_nat n (sort_nats t)

/-- VideoIndex.get_quarter_range (indexer.py 147–161): from the quarter's
    start to the next known quarter's start, or start + 2700 s for the last
    known quarter.  (The getD fallback is unreachable: the successor key is
    always present in the dict.) -/
def get_quarter_range (d : IndexData) (quarter : Nat) : Option (ℚ × ℚ) :=
  match lookupAssoc d.quarters quarter with
  | none => none
  | some start =>
    let sorted_quarters := sort_nats (d.quarters.map (fun p => p.1))
    let idx := sorted_quarters.indexOf quarter
    match sorted_quarters.get? (idx + 1) with
    | some nextq => some (start, (lookupAssoc d.quarters nextq).getD (start + 2700))
    | none => some (start, start + 2700)

/-- VideoIndex._make_key. -/
def make_key (quarter : Nat) (game_time : String) : String :=
  "Q" ++ toString quarter ++ "_" ++ game_time

/-- VideoIndex.get_mapping: pure cache lookup. -/
def get_mapping (d : IndexData) (quarter : Nat) (game_time : String) : Option ℚ :=
  lookupAssoc d.mappings (make_key quarter game_time)

/-- VideoIndex.set_mapping (indexer.py 169–171): the only mutator that calls
    save() before returning. -/
def VideoIndex.set_mapping (idx : VideoIndex) (quarter : Nat) (game_time : String)
    (vod_seconds : ℚ) : VideoIndex :=
  let data := { idx.data with mappings :=
      (updateAssoc idx.data.mappings (make_key quarter game_time) vod_seconds) }
  { data := data, saved := data }

/-- Decimal digit value of a character. -/
def digit_val (c : Char) : Option Nat :=
  if 48 ≤ c.toNat ∧ c.toNat ≤ 57 then some (c.toNat - 48) else none

/-- Parse a nonempty all-digit string (int(s) for such strings). -/
def parse_nat_digits : List Char → Option Nat → Option Nat
  | [], acc => acc
  | c :: cs, acc =>
    match digit_val c, acc with
    | some d, some n => parse_nat_digits cs (some (n * 10 + d))
    | some d, none => parse_nat_digits cs (some d)
    | none, _ => none

/-- Split a character list at each colon (s.split(":")). -/
def split_on_colon : List Char → List (List Char)
  | [] => [[]]
  | c :: cs =>
    let r := split_on_colon cs
    if c = ':' then [] :: r
    else
      match r with
      | h :: t => (c :: h) :: t
      | [] => [[c]]

/-- int(parts[0])*60 + int(parts[1]) on an "M:SS" clock string.  A malformed
    string (which would raise ValueError or IndexError in Python) parses to
    0; every claim uses well-formed strings. -/
def parse_time_total (t : String) : Int :=
  match (split_on_colon t.data).map (fun s => parse_nat_digits s none) with
  | [some m, some s] => (m : Int) * 60 + (s : Int)
  | _ => 0

/-- The offsets list of VideoIndexer.read_clock_at (indexer.py 318–320):
    [0] extended by i*step, -i*step for i in range(1, retries). -/
def build_offsets (retries : Nat) (offset_step : ℚ) : List ℚ :=
  (List.range' 1 (retries - 1)).foldl
    (fun (offsets : List ℚ) (i : Nat) =>
      offsets ++ [(i : ℚ) * offset_step, -((i : ℚ) * offset_step)]) [0]

/-- The probe loop of read_clock_at: skip out-of-bounds offsets, count each
    in-bounds oracle invocation, stop at the first reading. -/
def read_clock_go (oracle : ℚ → Option GameClock) (duration : ℚ) (vod_seconds : ℚ) :
    List ℚ → Nat → Option GameClock × Nat
  | [], n => (none, n)
  | o :: rest, n =>
    let try_time := vod_seconds + o
    if try_time < 0 ∨ try_time > duration then
      read_clock_go oracle duration vod_seconds rest n
    else
      match oracle try_time with
      | some clock => (some clock, n + 1)
      | none => read_clock_go oracle duration vod_seconds rest (n + 1)

/-- VideoIndexer.read_clock_at (indexer.py 316–336): returns the first
    successful reading over the offsets list together with the number of
    oracle calls made. -/
def read_clock_at (oracle : ℚ → Option GameClock) (duration : ℚ) (vod_seconds : ℚ)
    (retries : Nat) (offset_step : ℚ) : Option GameClock × Nat :=
  read_clock_go oracle duration vod_seconds (build_offsets retries offset_step) 0

/-- Context of one find_exact_time call: the oracle, the video duration, the
    index fields the search reads (quarters and dead zones are not mutated
    during the search), and the target. -/
structure FetCtx where
  oracle : ℚ → Option GameClock
  duration : ℚ
  quarters : List (Nat × ℚ)
  dead_zones : List (ℚ × ℚ)
  target_quarter : Nat
  target_total : Int
  tolerance : Int

/-- Mutable state of the find_exact_time loop: current position, session
    readings (vod, quarter, game seconds), running best match (offset, diff)
    with none for the initial best_diff = inf, the known-frames cache being
    enriched, and the oracle call count. -/
structure FetSt where
  current_pos : ℚ
  readings : List (ℚ × Nat × Int)
  best : Option (ℚ × Int)
  known_frames : List (ℚ × Nat × String)
  calls : Nat
deriving DecidableEq, Repr

/-- How the find_exact_time loop ended. -/
inductive FetExit where
  | tolerance
  | converged
  | stuck
  | exhausted
deriving DecidableEq, Repr

/-- Result of find_exact_time: returned offset plus ghost observables (trace
    of readings, final best match, exit reason, final position, call count). -/
structure FetResult where
  result : Option ℚ
  reason : FetExit
  best : Option (ℚ × Int)
  readings : List (ℚ × Nat × Int)
  known_frames : List (ℚ × Nat × String)
  final_pos : ℚ
  calls : Nat
deriving DecidableEq, Repr

/-- Outcome of one loop iteration. -/
inductive FetOut where
  | ret (pos : ℚ) (st : FetSt)
  | brkConv (st : FetSt)
  | brkStuck (st : FetSt)
  | cont (st : FetSt)
deriving DecidableEq, Repr

/-- Python truthiness of best_match (None and 0.0 are falsy). -/
def best_truthy (b : Option (ℚ × Int)) : Bool :=
  match b with
  | some p => decide (p.1 ≠ 0)
  | none => false

/-- diff < best_diff, where an absent best means best_diff = inf. -/
def lt_best (d : Int) (b : Option (ℚ × Int)) : Bool :=
  match b with
  | some p => decide (d < p.2)
  | none => true

/-- Python max() on a nonempty list (0 on the unreachable empty list). -/
def max_list (l : List ℚ) : ℚ :=
  match l with
  | [] => 0
  | h :: t => t.foldl max h

/-- Python min() on a nonempty list (0 on the unreachable empty list). -/
def min_list (l : List ℚ) : ℚ :=
  match l with
  | [] => 0
  | h :: t => t.foldl min h

/-- readings[-4:] positions. -/
def last_positions (readings : List (ℚ × Nat × Int)) : List ℚ :=
  (readings.map (fun r => r.1)).drop (readings.length - 4)

/-- len(set(round(p, 0) for p in ps)). -/
def unique_rounded (ps : List ℚ) : Nat :=
  (ps.map roundHalfEven).dedup.length

/-- The convergence test of indexer.py 467–473: at least 4 readings, whose
    last four positions show ≥ 3 distinct rounded values within a span
    strictly below 15 s. -/
def cluster_cond (readings : List (ℚ × Nat × Int)) : Bool :=
  decide (4 ≤ readings.length) &&
  decide (3 ≤ unique_rounded (last_positions readings)) &&
  decide (max_list (last_positions readings) - min_list (last_positions readings) < 15)

/-- The stuck test of indexer.py 474–477: four readings at one rounded
    position. -/
def stuck_cond (readings : List (ℚ × Nat × Int)) : Bool :=
  decide (4 ≤ readings.length) &&
  decide (unique_rounded (last_positions readings) = 1)

/-- The initial probe position of find_exact_time (indexer.py 361–370):
    from a truthy quarter start, extrapolate at 1.5 VOD seconds per game
    second and clamp into the search window; otherwise the window midpoint. -/
def initial_position (quarters : List (Nat × ℚ)) (target_quarter : Nat)
    (target_total : Int) (search_start search_end : ℚ) : ℚ :=
  match lookupAssoc quarters target_quarter with
  | some quarter_start =>
    if quarter_start ≠ 0 then
      max search_start (min search_end
        (quarter_start + ((900 - target_total : Int) : ℚ) * (3/2)))
    else (search_start + search_end) / 2
  | none => (search_start + search_end) / 2

/-- Dead-zone skip (indexer.py 383–387): jump to the first containing zone's
    end + 5. -/
def skip_dead_zone (zones : List (ℚ × ℚ)) (pos : ℚ) : ℚ :=
  if is_in_dead_zone zones pos then
    match zones.find? (fun z => decide (z.1 ≤ pos) && decide (pos ≤ z.2)) with
    | some z => z.2 + 5
    | none => pos
  else pos

/-- The nearby-offset fallback of indexer.py 392–401: try ±10, ±20 with a
    single-attempt read at each in-bounds alternative. -/
def probe_alts (oracle : ℚ → Option GameClock) (duration : ℚ) (pos : ℚ) :
    List ℚ → Nat → Option (ℚ × GameClock) × Nat
  | [], n => (none, n)
  | o :: rest, n =>
    let alt := pos + o
    if 0 ≤ alt ∧ alt ≤ duration then
      let r := read_clock_at oracle duration alt 1 2
      match r.1 with
      | some clock => (some (alt, clock), n + r.2)
      | none => probe_alts oracle duration pos rest (n + r.2)
    else probe_alts oracle duration pos rest n

/-- One probe of the find_exact_time loop: read at the current position with
    retries=2, then fall back to ±10, ±20 (indexer.py 389–401). -/
def fet_probe (ctx : FetCtx) (pos : ℚ) : Option (ℚ × GameClock) × Nat :=
  let r := read_clock_at ctx.oracle ctx.duration pos 2 2
  match r.1 with
  | some clock => (some (pos, clock), r.2)
  | none => probe_alts ctx.oracle ctx.duration pos [10, -10, 20, -20] r.2

/-- Same-quarter readings of this session as (vod, game seconds) pairs. -/
def same_quarter_readings (readings : List (ℚ × Nat × Int)) (tq : Nat) :
    List (ℚ × Int) :=
  (readings.filter (fun r => decide (r.2.1 = tq))).map (fun r => (r.1, r.2.2))

/-- Best-match update (indexer.py 415–419). -/
def fet_record_best (ctx : FetCtx) (best : Option (ℚ × Int)) (pos : ℚ)
    (clock : GameClock) : Option (ℚ × Int) :=
  if clock.quarter = ctx.target_quarter then
    let diff := |clock.total_seconds - ctx.target_total|
    if lt_best diff best then some (pos, diff) else best
  else best

/-- The jump computation of indexer.py 425–464: linear estimate (1.3 within
    the quarter, quarter-sized jumps across quarters), secant refinement from
    the two most recent same-quarter readings, and damping of jumps over
    100 s when a truthy best match exists. -/
def fet_next_pos (ctx : FetCtx) (readings : List (ℚ × Nat × Int)) (pos : ℚ)
    (clock : GameClock) (best : Option (ℚ × Int)) : ℚ :=
  let current_game_secs := clock.total_seconds
  let next0 :=
    if clock.quarter = ctx.target_quarter then
      pos + ((current_game_secs - ctx.target_total : Int) : ℚ) * (13/10)
    else if clock.quarter < ctx.target_quarter then
      pos + ((ctx.target_quarter - clock.quarter : Nat) : ℚ) * 2000 +
        ((900 - ctx.target_total : Int) : ℚ) * (12/10)
    else
      pos - ((clock.quarter - ctx.target_quarter : Nat) : ℚ) * 2000 -
        ((ctx.target_total : Int) : ℚ) * (12/10)
  let sq := same_quarter_readings readings ctx.target_quarter
  let next1 :=
    if 2 ≤ sq.length then
      match sq.get? (sq.length - 2), sq.get? (sq.length - 1) with
      | some r1, some r2 =>
        let vod_diff := r2.1 - r1.1
        let game_diff := r1.2 - r2.2
        if game_diff ≠ 0 then
          r2.1 + ((r2.2 - ctx.target_total : Int) : ℚ) * (vod_diff / (game_diff : ℚ))
        else next0
      | _, _ => next0
    else next0
  if best_truthy best && decide (100 < |next1 - pos|) then
    pos + (next1 - pos) * (1/2)
  else next1

/-- One iteration of the find_exact_time loop (indexer.py 375–480). -/
def fet_iter (ctx : FetCtx) (st : FetSt) : FetOut :=
  let pos0 := max 0 (min ctx.duration st.current_pos)
  let pos1 := skip_dead_zone ctx.dead_zones pos0
  let pr := fet_probe ctx pos1
  match pr.1 with
  | none => .cont { st with current_pos := pos1 + 30, calls := st.calls + pr.2 }
  | some pc =>
    let pos := pc.1
    let clock := pc.2
    let kf := updateAssoc st.known_frames (roundTenth pos) (clock.quarter, clock.time_str)
    let readings := st.readings ++ [(pos, clock.quarter, clock.total_seconds)]
    let best := fet_record_best ctx st.best pos clock
    let st1 : FetSt := { current_pos := pos, readings := readings, best := best,
                         known_frames := kf, calls := st.calls + pr.2 }
    if clock.quarter = ctx.target_quarter ∧
        |clock.total_seconds - ctx.target_total| ≤ ctx.tolerance then
      .ret pos st1
    else
      let next_pos := fet_next_pos ctx readings pos clock best
      if cluster_cond readings then .brkConv st1
      else if stuck_cond readings then .brkStuck st1
      else .cont { st1 with current_pos := next_pos }

/-- Termination value when the loop ends without a tolerance-exact return
    (indexer.py 484–488): best_match when truthy and best_diff ≤ 2 (a fixed
    bound), else None. -/
def relaxed_return (best : Option (ℚ × Int)) : Option ℚ :=
  match best with
  | some p => if p.1 ≠ 0 ∧ p.2 ≤ 2 then some p.1 else none
  | none => none

/-- Assemble the result of a loop that ended without a tolerance-exact
    return. -/
def fet_finish (st : FetSt) (reason : FetExit) : FetResult :=
  { result := relaxed_return st.best, reason := reason, best := st.best,
    readings := st.readings, known_frames := st.known_frames,
    final_pos := st.current_pos, calls := st.calls }

/-- The while loop of find_exact_time, with fuel = max_iterations −
    iterations. -/
def fet_loop (ctx : FetCtx) : Nat → FetSt → FetResult
  | 0, st => fet_finish st .exhausted
  | fuel + 1, st =>
    match fet_iter ctx st with
    | .ret pos st1 =>
      { result := some pos, reason := .tolerance, best := st1.best,
        readings := st1.readings, known_frames := st1.known_frames,
        final_pos := pos, calls := st1.calls }
    | .brkConv st1 => fet_finish st1 .converged
    | .brkStuck st1 => fet_finish st1 .stuck
    | .cont st1 => fet_loop ctx fuel st1

/-- VideoIndexer.find_exact_time (indexer.py 338–488) over the index fields
    it reads (quarters, dead_zones) and writes (known_frames), with
    max_iterations = 15. -/
def find_exact_time_core (oracle : ℚ → Option GameClock) (duration : ℚ)
    (quarters : List (Nat × ℚ)) (dead_zones : List (ℚ × ℚ))
    (known_frames : List (ℚ × Nat × String)) (target_quarter : Nat)
    (target_total : Int) (search_start search_end : ℚ)
    (tolerance_seconds : Int) : FetResult :=
  let ctx : FetCtx :=
    { oracle := oracle, duration := duration, quarters := quarters,
      dead_zones := dead_zones, target_quarter := target_quarter,
      target_total := target_total, tolerance := tolerance_seconds }
  fet_loop ctx 15
    { current_pos := initial_position quarters target_quarter target_total
        search_start search_end,
      readings := [], best := none, known_frames := known_frames, calls := 0 }

/-- find_exact_time acting on a VideoIndex.  Every exit path of the Python
    function ends in self.index.save() (lines 422 and 482), so the result
    index is saved with the enriched known_frames. -/
def find_exact_time (oracle : ℚ → Option GameClock) (duration : ℚ)
    (idx : VideoIndex) (target_quarter : Nat) (target_time : String)
    (search_start search_end : ℚ) (tolerance_seconds : Int) :
    Option ℚ × VideoIndex × Nat :=
  let r := find_exact_time_core oracle duration idx.data.quarters
    idx.data.dead_zones idx.data.known_frames target_quarter
    (parse_time_total target_time) search_start search_end tolerance_seconds
  let data := { idx.data with known_frames := r.known_frames }
  (r.result, { data := data, saved := data }, r.calls)

deriving instance DecidableEq for Except

/-- Python exceptions raised by the clip service. -/
inductive PyError where
  | valueError (msg : String)
  | runtimeError (msg : String)
  | nameError (msg : String)
deriving DecidableEq, Repr

/-- The branch of find_vod_timestamp on the bound result of find_exact_time
    (indexer.py 615–622): cache and return a truthy offset, else
    RuntimeError. -/
def fvt_branch (quarter : Nat) (game_time : String)
    (r : Option ℚ × VideoIndex × Nat) : Except PyError ℚ × VideoIndex × Nat :=
  match r.1 with
  | some v =>
    if v ≠ 0 then (.ok v, (r.2.1).set_mapping quarter game_time v, r.2.2)
    else (.error (.runtimeError ("Could not find Q" ++ toString quarter ++ " " ++
      game_time ++ " in quarter range")), r.2.1, r.2.2)
  | none => (.error (.runtimeError ("Could not find Q" ++ toString quarter ++ " " ++
      game_time ++ " in quarter range")), r.2.1, r.2.2)

/-- The search path of find_vod_timestamp (indexer.py 612–622): run the smart
    search, bind its result, and branch on it. -/
def fvt_search (oracle : ℚ → Option GameClock) (duration : ℚ) (idx : VideoIndex)
    (quarter : Nat) (game_time : String) (base_start base_end : ℚ) :
    Except PyError ℚ × VideoIndex × Nat :=
  fvt_branch quarter game_time
    (find_exact_time oracle duration idx quarter game_time base_start base_end 1)

/-- VideoIndexer.find_vod_timestamp (indexer.py 593–622). -/
def find_vod_timestamp (oracle : ℚ → Option GameClock) (duration : ℚ)
    (idx : VideoIndex) (quarter : Nat) (game_time : String) :
    Except PyError ℚ × VideoIndex × Nat :=
  if is_indexed idx.data then
    match get_quarter_range idx.data quarter with
    | none => (.error (.valueError ("Quarter " ++ toString quarter ++
        " not found in index")), idx, 0)
    | some r =>
      match get_mapping idx.data quarter game_time with
      | some cached =>
        if cached ≠ 0 then (.ok cached, idx, 0)
        else fvt_search oracle duration idx quarter game_time r.1 r.2
      | none => fvt_search oracle duration idx quarter game_time r.1 r.2
  else (.error (.valueError "No index found. Run auto_index first."), idx, 0)

/-- The coarse sample times of auto_index (indexer.py 536–542): t = 0,
    sample_interval, 2·sample_interval, … while t < duration.  (For
    sample_interval = 0 the Python loop would not terminate; callers use the
    default 300.) -/
def sample_times (duration : ℚ) (sample_interval : Nat) : List ℚ :=
  (List.range (Int.toNat (Int.ceil (duration / (sample_interval : ℚ))))).map
    (fun k => ((k * sample_interval : Nat) : ℚ))

/-- Phase 1 of auto_index: the coarse sweep with retries=2 at each sample. -/
def phase1_samples (oracle : ℚ → Option GameClock) (duration : ℚ)
    (sample_interval : Nat) : List (ℚ × Option GameClock) × Nat :=
  (sample_times duration sample_interval).foldl
    (fun acc t =>
      let r := read_clock_at oracle duration t 2 2
      (acc.1 ++ [(t, r.1)], acc.2 + r.2))
    ([], 0)

/-- Append a sample to its quarter's bucket (dict-of-lists semantics). -/
def append_bucket (buckets : List (Nat × List (ℚ × GameClock))) (q : Nat)
    (s : ℚ × GameClock) : List (Nat × List (ℚ × GameClock)) :=
  match buckets with
  | [] => [(q, [s])]
  | (q', l) :: t => if q' = q then (q, l ++ [s]) :: t else (q', l) :: append_bucket t q s

/-- Phase 2 grouping of auto_index (indexer.py 545–551). -/
def group_by_quarter (samples : List (ℚ × Option GameClock)) :
    List (Nat × List (ℚ × GameClock)) :=
  samples.foldl
    (fun buckets s =>
      match s.2 with
      | some clock => append_bucket buckets clock.quarter (s.1, clock)
      | none => buckets)
    []

/-- Stable insertion for sorted(·, key=total_seconds, reverse=True). -/
def insert_desc_by_total (s : ℚ × GameClock) : List (ℚ × GameClock) → List (ℚ × GameClock)
  | [] => [s]
  | w :: t =>
    if w.2.total_seconds ≥ s.2.total_seconds then w :: insert_desc_by_total s t
    else s :: w :: t

/-- Python sorted(·, key=total_seconds, reverse=True), stable. -/
def sort_desc_by_total : List (ℚ × GameClock) → List (ℚ × GameClock)
  | [] => []
  | s :: t => insert_desc_by_total s (sort_desc_by_total t)

/-- Rough quarter start: the sample with the largest remaining seconds
    (indexer.py 555–560). -/
def rough_start (q_samples : List (ℚ × GameClock)) : ℚ :=
  match sort_desc_by_total q_samples with
  | e :: _ => e.1
  | [] => 0

/-- Phase 3 of auto_index (indexer.py 565–585): refine each detected quarter
    (quarters above 5 skipped) by searching for 15:00 around the rough start;
    a falsy search result falls back to the rough estimate. -/
def auto_index_refine (oracle : ℚ → Option GameClock) (duration : ℚ)
    (sample_interval : Nat) (rough_starts : List (Nat × ℚ)) :
    List Nat → VideoIndex × Nat → VideoIndex × Nat
  | [], acc => acc
  | q :: rest, acc =>
    if q > 5 then auto_index_refine oracle duration sample_interval rough_starts rest acc
    else
      match lookupAssoc rough_starts q with
      | none => auto_index_refine oracle duration sample_interval rough_starts rest acc
      | some rough =>
        let ss := max 0 (rough - (sample_interval : ℚ) - 60)
        let se := rough + 60
        let r := find_exact_time oracle duration acc.1 q "15:00" ss se 1
        let idx2 :=
          match r.1 with
          | some ex =>
            if ex ≠ 0 then (r.2.1).set_quarter_start q ex
            else (r.2.1).set_quarter_start q rough
          | none => (r.2.1).set_quarter_start q rough
        auto_index_refine oracle duration sample_interval rough_starts rest
          (idx2, acc.2 + r.2.2)

/-- VideoIndexer.auto_index (indexer.py 520–591): coarse sweep, quarter
    grouping, refinement, and a final save. -/
def auto_index (oracle : ℚ → Option GameClock) (duration : ℚ) (idx : VideoIndex)
    (sample_interval : Nat) : VideoIndex × Nat :=
  let p1 := phase1_samples oracle duration sample_interval
  let quarter_samples := group_by_quarter p1.1
  let rough_starts := quarter_samples.map (fun b => (b.1, rough_start b.2))
  let keys := sort_nats (quarter_samples.map (fun b => b.1))
  let r := auto_index_refine oracle duration sample_interval rough_starts keys (idx, 0)
  ((r.1).save, p1.2 + r.2)

/-- A Python value stored in a play_data dict row (service.py). -/
inductive PValue where
  | str (s : String)
  | num (q : ℚ)
  | boolean (b : Bool)
  | null
deriving DecidableEq, Repr

/-- Python truthiness of a play_data value. -/
def PValue.truthy : PValue → Bool
  | .str s => decide (s ≠ "")
  | .num q => decide (q ≠ 0)
  | .boolean b => b
  | .null => false

/-- A play_data dict. -/
abbrev PlayData := List (String × PValue)

/-- dict.get(key) with default None. -/
def pget (pd : PlayData) (k : String) : PValue :=
  (lookupAssoc pd k).getD .null

/-- models/schemas.py GameTimestamp. -/
structure GameTimestamp where
  quarter : Nat
  time : String
  play_data : Option PlayData
deriving DecidableEq, Repr

/-- models/schemas.py ClipTimestamp (pass-through play metadata kept as raw
    values; booleans via Python truthiness as pydantic would coerce). -/
structure ClipTimestamp where
  start_time : ℚ
  end_time : ℚ
  video_path : String
  description : PValue
  play_type : PValue
  down : PValue
  ydstogo : PValue
  yards_gained : PValue
  posteam : PValue
  defteam : PValue
  quarter : Nat
  game_time : String
  posteam_score : PValue
  defteam_score : PValue
  passer : PValue
  rusher : PValue
  receiver : PValue
  is_touchdown : Bool
  is_interception : Bool
  is_sack : Bool
  is_fumble : Bool
  yardline_100 : PValue
  wpa : PValue
deriving DecidableEq, Repr

/-- service.py clip-duration table. -/
def PLAY_TYPE_DURATIONS : List (String × ℚ) :=
  [("pass", 20), ("run", 20), ("kickoff", 25), ("punt", 25), ("field_goal", 20),
   ("extra_point", 15), ("no_play", 15), ("qb_kneel", 10), ("qb_spike", 10)]

/-- service.py constants. -/
def DEFAULT_CLIP_DURATION : ℚ := 20

/-- service.py pre-roll padding. -/
def PRE_PLAY_PADDING : ℚ := 5

/-- service.py touchdown bonus. -/
def TOUCHDOWN_BONUS : ℚ := 25

/-- service.py turnover bonus. -/
def TURNOVER_BONUS : ℚ := 15

/-- service.py _get_clip_duration.  play_data.get("play_type") or "" yields
    the string when truthy, else "" (a non-string play_type, like "", is not
    a key of the table, so both give the default duration). -/
def get_clip_duration (play_data : PlayData) : ℚ :=
  let play_type :=
    match pget play_data "play_type" with
    | .str s => if s = "" then "" else s
    | _ => ""
  let base := (lookupAssoc PLAY_TYPE_DURATIONS play_type).getD DEFAULT_CLIP_DURATION
  let base := if (pget play_data "touchdown").truthy then base + TOUCHDOWN_BONUS else base
  if (pget play_data "interception").truthy || (pget play_data "fumble").truthy then
    base + TURNOVER_BONUS
  else base

/-- The per-timestamp loop of service.py get_clips (lines 62–92).  The local
    variable pd is an Option that is none until first assigned; reading it
    while none is Python's NameError (UnboundLocalError).  Note the source
    reads pd for the clip duration BEFORE assigning pd for this iteration. -/
def get_clips_loop (oracle : ℚ → Option GameClock) (duration : ℚ)
    (video_path : String) (play_buffer_seconds : ℚ) :
    List GameTimestamp → Option PlayData → List ClipTimestamp → VideoIndex → Nat →
    Except PyError (List ClipTimestamp) × VideoIndex × Nat
  | [], _, clips, idx, n => (.ok clips.reverse, idx, n)
  | ts :: rest, pd_local, clips, idx, n =>
    let r := find_vod_timestamp oracle duration idx ts.quarter ts.time
    match r.1 with
    | .error e => (.error e, r.2.1, n + r.2.2)
    | .ok v =>
      let start := max 0 (v - PRE_PLAY_PADDING)
      match pd_local with
      | none =>
        (.error (.nameError "local variable pd referenced before assignment"),
         r.2.1, n + r.2.2)
      | some pdv =>
        let dur := get_clip_duration pdv
        let stop := start + dur + play_buffer_seconds
        let pd := (ts.play_data).getD []
        let clip : ClipTimestamp :=
          { start_time := start, end_time := stop, video_path := video_path,
            description := pget pd "desc", play_type := pget pd "play_type",
            down := pget pd "down", ydstogo := pget pd "ydstogo",
            yards_gained := pget pd "yards_gained", posteam := pget pd "posteam",
            defteam := pget pd "defteam", quarter := ts.quarter,
            game_time := ts.time, posteam_score := pget pd "posteam_score",
            defteam_score := pget pd "defteam_score",
            passer := pget pd "passer_player_name",
            rusher := pget pd "rusher_player_name",
            receiver := pget pd "receiver_player_name",
            is_touchdown := (pget pd "touchdown").truthy,
            is_interception := (pget pd "interception").truthy,
            is_sack := (pget pd "sack").truthy,
            is_fumble := (pget pd "fumble").truthy,
            yardline_100 := pget pd "yardline_100", wpa := pget pd "wpa" }
        get_clips_loop oracle duration video_path play_buffer_seconds rest (some pd)
          (clip :: clips) r.2.1 (n + r.2.2)

/-- The auto-index-if-needed preamble of get_clips (service.py 59–60). -/
def pre_index (oracle : ℚ → Option GameClock) (duration : ℚ) (idx : VideoIndex) :
    VideoIndex × Nat :=
  if is_indexed idx.data then (idx, 0) else auto_index oracle duration idx 300

/-- service.py get_clips: auto-index if unindexed, then resolve each
    timestamp into a clip.  Returns the Python outcome (the clip list, or
    the first exception raised), the final index, and the oracle calls. -/
def get_clips (oracle : ℚ → Option GameClock) (duration : ℚ) (video_path : String)
    (idx : VideoIndex) (timestamps : List GameTimestamp)
    (play_buffer_seconds : ℚ) : Except PyError (List ClipTimestamp) × VideoIndex × Nat :=
  let p := pre_index oracle duration idx
  get_clips_loop oracle duration video_path play_buffer_seconds timestamps none [] p.1 p.2

/- Concrete test fixtures: small oracles and index states used by the
   concrete theorems below. -/

/-- An oracle that never sees a clock. -/
def oracle_none : ℚ → Option GameClock := fun _ => none

/-- An oracle that always reads Q1 15:00. -/
def oracle_q900 : ℚ → Option GameClock := fun _ => some ⟨1, 15, 0⟩

/-- An oracle that always reads Q1 10:05 (605 s remaining). -/
def oracle_const_605 : ℚ → Option GameClock := fun _ => some ⟨1, 10, 5⟩

/-- An oracle visible only at offset 2079, reading Q2 8:34. -/
def oracle_at_2079 : ℚ → Option GameClock := fun t =>
  if t = 2079 then some ⟨2, 8, 34⟩ else none

/-- An oracle whose readings drive the search into the convergence break:
    probes at 100, 126, 165, 172.8, 175.4, 167.6 read Q1 clocks of 620, 612,
    602, 602, 603 and 602 s remaining. -/
def oracle_cluster : ℚ → Option GameClock := fun t =>
  if t = 100 then some ⟨1, 10, 20⟩
  else if t = 126 then some ⟨1, 10, 12⟩
  else if t = 165 then some ⟨1, 10, 2⟩
  else if t = 172.8 then some ⟨1, 10, 2⟩
  else if t = 175.4 then some ⟨1, 10, 3⟩
  else if t = 167.6 then some ⟨1, 10, 2⟩
  else none

/-- An empty index (fresh cache). -/
def empty_index : VideoIndex :=
  { data := { quarters := [], mappings := [], known_frames := [], dead_zones := [] },
    saved := { quarters := [], mappings := [], known_frames := [], dead_zones := [] } }

/-- An index knowing only that Q1 starts at 100 s. -/
def index_q1_100 : VideoIndex :=
  { data := { quarters := [(1, 100)], mappings := [], known_frames := [], dead_zones := [] },
    saved := { quarters := [(1, 100)], mappings := [], known_frames := [], dead_zones := [] } }

/-- An index knowing only that Q1 starts at 50 s. -/
def index_q1_50 : VideoIndex :=
  { data := { quarters := [(1, 50)], mappings := [], known_frames := [], dead_zones := [] },
    saved := { quarters := [(1, 50)], mappings := [], known_frames := [], dead_zones := [] } }

/-- An index with a resolved mapping cached at offset exactly 0.0. -/
def index_cached_zero : VideoIndex :=
  { data := { quarters := [(1, 100)], mappings := [("Q1_15:00", 0)], known_frames := [],
              dead_zones := [] },
    saved := { quarters := [(1, 100)], mappings := [("Q1_15:00", 0)], known_frames := [],
               dead_zones := [] } }

/-- Request fixture Q1 15:00. -/
def ts_q1_1500 : GameTimestamp := { quarter := 1, time := "15:00", play_data := none }

/-- Request fixture Q2 8:34. -/
def ts_q2_834 : GameTimestamp := { quarter := 2, time := "8:34", play_data := none }

/- Helper lemmas. -/

/-- Looking up the key just written. -/
theorem lookupAssoc_updateAssoc_self {α β : Type} [DecidableEq α] :
    ∀ (l : List (α × β)) (k : α) (v : β), lookupAssoc (updateAssoc l k v) k = some v := by
  intro l k v
  induction l with
  | nil => simp [updateAssoc, lookupAssoc]
  | cons h t ih =>
    by_cases hk : h.1 = k
    · simp [updateAssoc, lookupAssoc, hk]
    · simp only [updateAssoc, lookupAssoc]
      rw [if_neg hk, lookupAssoc, if_neg hk]
      exact ih

/-- Looking up a key removed by a filter. -/
theorem lookupAssoc_filter_ne {α β : Type} [DecidableEq α] :
    ∀ (l : List (α × β)) (k : α),
      lookupAssoc (l.filter (fun kv => decide (kv.1 ≠ k))) k = none := by
  intro l k
  induction l with
  | nil => rfl
  | cons h t ih =>
    rw [List.filter_cons]
    by_cases hk : h.1 = k
    · rw [if_neg (by simp [hk])]
      exact ih
    · rw [if_pos (by simp [hk]), lookupAssoc, if_neg hk]
      exact ih

/-- get_quarter_range reads only the quarters field. -/
theorem get_quarter_range_congr {d d' : IndexData} (h : d.quarters = d'.quarters)
    (q : Nat) : get_quarter_range d q = get_quarter_range d' q := by
  simp only [get_quarter_range, h]

/-- is_indexed reads only the quarters field. -/
theorem is_indexed_congr {d d' : IndexData} (h : d.quarters = d'.quarters) :
    is_indexed d = is_indexed d' := by
  simp only [is_indexed, h]

/-- find_exact_time does not change the quarters field. -/
theorem find_exact_time_quarters (oracle : ℚ → Option GameClock) (duration : ℚ)
    (idx : VideoIndex) (tq : Nat) (tt : String) (ss se : ℚ) (tol : Int) :
    ((find_exact_time oracle duration idx tq tt ss se tol).2.1).data.quarters =
      idx.data.quarters := rfl

/-- set_mapping does not change the quarters field. -/
theorem set_mapping_quarters (idx : VideoIndex) (q : Nat) (t : String) (v : ℚ) :
    ((idx.set_mapping q t v)).data.quarters = idx.data.quarters := rfl

/-- get_mapping after set_mapping of the same key. -/
theorem get_mapping_set_mapping (idx : VideoIndex) (q : Nat) (t : String) (v : ℚ) :
    get_mapping ((idx.set_mapping q t v)).data q t = some v :=
  lookupAssoc_updateAssoc_self _ _ _

/-- Claim C6 counterexample: add_known_frame returns with the in-memory
    known_frames differing from the persisted state, so it did not write the
    index to durable storage before returning. -/
theorem add_known_frame_not_persisted_cex :
    (empty_index.add_known_frame 100 1 "10:00").data.known_frames ≠
      (empty_index.add_known_frame 100 1 "10:00").saved.known_frames := by decide

/-- Claim C6 (amended): among the mutating operations, only set_mapping
    persists the index (saved = data on return); add_known_frame,
    add_dead_zone and set_quarter_start mutate the in-memory state only and
    leave the persisted state untouched until an explicit save. -/
theorem only_set_mapping_saves (idx : VideoIndex) (q fq qq : Nat) (t ft : String)
    (v vod s e qv : ℚ) :
    (idx.set_mapping q t v).saved = (idx.set_mapping q t v).data ∧
    (idx.add_known_frame vod fq ft).saved = idx.saved ∧
    (idx.add_dead_zone s e).saved = idx.saved ∧
    (idx.set_quarter_start qq qv).saved = idx.saved ∧
    (idx.add_known_frame vod fq ft).data.known_frames =
      updateAssoc idx.data.known_frames (roundTenth vod) (fq, ft) ∧
    (idx.set_quarter_start qq qv).data.quarters = updateAssoc idx.data.quarters qq qv :=
  ⟨rfl, rfl, rfl, rfl, rfl, rfl⟩

attribute [local semireducible] Rat.add Rat.mul Rat.sub Rat.inv Rat.ofScientific in
/-- Claim C9 counterexample: with retries = 3 the adapter makes 5 oracle
    attempts, more than the claimed bound of retries = 3 total attempts. -/
theorem read_clock_retries_cex :
    (read_clock_at oracle_none 1000 500 3 2).2 = 5 ∧
    ¬ ((read_clock_at oracle_none 1000 500 3 2).2 ≤ 3) := by decide

/-- read_clock_go returns the first in-bounds successful reading of its
    offset list. -/
theorem read_clock_go_fst (oracle : ℚ → Option GameClock) (duration vod : ℚ) :
    ∀ (l : List ℚ) (n : Nat),
      (read_clock_go oracle duration vod l n).1 =
        (l.filterMap (fun o =>
          if vod + o < 0 ∨ vod + o > duration then none else oracle (vod + o))).head? := by
  intro l
  induction l with
  | nil => intro n; rfl
  | cons o rest ih =>
    intro n
    simp only [read_clock_go, List.filterMap_cons]
    by_cases hb : vod + o < 0 ∨ vod + o > duration
    · rw [if_pos hb, if_pos hb]
      exact ih n
    · rw [if_neg hb, if_neg hb]
      cases ho : oracle (vod + o) with
      | some c => simp
      | none => simpa using ih (n + 1)

/-- read_clock_go makes at most one oracle call per offset. -/
theorem read_clock_go_count (oracle : ℚ → Option GameClock) (duration vod : ℚ) :
    ∀ (l : List ℚ) (n : Nat),
      (read_clock_go oracle duration vod l n).2 ≤ n + l.length := by
  intro l
  induction l with
  | nil => intro n; simp [read_clock_go]
  | cons o rest ih =>
    intro n
    simp only [read_clock_go, List.length_cons]
    by_cases hb : vod + o < 0 ∨ vod + o > duration
    · rw [if_pos hb]
      exact le_trans (ih n) (by omega)
    · rw [if_neg hb]
      cases ho : oracle (vod + o) with
      | some c => simp
      | none => exact le_trans (ih (n + 1)) (by omega)

/-- The offsets list has 1 + 2·(retries − 1) entries. -/
theorem build_offsets_length (retries : Nat) (step : ℚ) :
    (build_offsets retries step).length = 1 + 2 * (retries - 1) := by
  have h : ∀ (l : List Nat) (init : List ℚ),
      (l.foldl (fun (offsets : List ℚ) (i : Nat) =>
        offsets ++ [(i : ℚ) * step, -((i : ℚ) * step)]) init).length =
        init.length + 2 * l.length := by
    intro l
    induction l with
    | nil => intro init; simp
    | cons a t ih =>
      intro init
      rw [List.foldl_cons, ih]
      simp
      omega
  have h2 := h (List.range' 1 (retries - 1)) [0]
  simp only [List.length_range'] at h2
  simpa [build_offsets] using h2

/-- Claim C9 (amended): read_clock_at probes the oracle at vod_seconds, then
    at ± offset_step, ± 2·offset_step, …, ± (retries−1)·offset_step, skipping
    out-of-bounds attempts; it returns the first successful reading (none if
    every attempt misses or is out of bounds) and makes at most
    2·retries − 1 oracle attempts — not retries. -/
theorem read_clock_at_spec (oracle : ℚ → Option GameClock) (duration vod : ℚ)
    (retries : Nat) (step : ℚ) (h : 1 ≤ retries) :
    (read_clock_at oracle duration vod retries step).1 =
      ((build_offsets retries step).filterMap (fun o =>
        if vod + o < 0 ∨ vod + o > duration then none else oracle (vod + o))).head? ∧
    (read_clock_at oracle duration vod retries step).2 ≤ 2 * retries - 1 := by
  constructor
  · exact read_clock_go_fst oracle duration vod (build_offsets retries step) 0
  · have hc := read_clock_go_count oracle duration vod (build_offsets retries step) 0
    have hl := build_offsets_length retries step
    rw [read_clock_at]
    omega

attribute [local semireducible] Rat.add Rat.mul Rat.sub Rat.inv Rat.ofScientific in
/-- Claim C9 witness: the amended contract instantiated at retries = 3,
    step = 2, vod = 500 with the blind oracle. -/
theorem read_clock_at_spec_witness :
    1 ≤ 3 ∧
    ((read_clock_at oracle_none 1000 500 3 2).1 =
      ((build_offsets 3 2).filterMap (fun o =>
        if (500 : ℚ) + o < 0 ∨ (500 : ℚ) + o > 1000 then none
        else oracle_none (500 + o))).head? ∧
     (read_clock_at oracle_none 1000 500 3 2).2 ≤ 2 * 3 - 1) :=
  ⟨by decide, read_clock_at_spec oracle_none 1000 500 3 2 (by decide)⟩

attribute [local semireducible] Rat.add Rat.mul Rat.sub Rat.inv Rat.ofScientific in
/-- Claim C3 counterexample: with quarter_starts = {2: 1500} and target Q2
    8:34 (514 s remaining), the initial probe position is 2079 — the code
    extrapolates at ratio 1.5 — not the claimed 1500 + (900−514)·1.3 ≈ 2002. -/
theorem initial_guess_ratio_cex :
    initial_position [(2, 1500)] 2 514 1500 4200 = 2079 ∧
    parse_time_total "8:34" = 514 ∧
    ¬ (initial_position [(2, 1500)] 2 514 1500 4200 = 1500 + (900 - 514) * (13/10 : ℚ)) := by
  decide

attribute [local semireducible] Rat.add Rat.mul Rat.sub Rat.inv Rat.ofScientific in
/-- Claim C3 (amended): with a truthy quarter start the first probe position
    is quarter_start + (900 − target_total) · 1.5, clamped into the search
    window (for the spec scenario: 2079, where the first oracle probe indeed
    lands); with no known quarter start it is the window midpoint. -/
theorem initial_guess_extrapolation (quarters : List (Nat × ℚ)) (tq : Nat)
    (total : Int) (ss se qs : ℚ) (h : lookupAssoc quarters tq = some qs)
    (h0 : qs ≠ 0) :
    initial_position quarters tq total ss se =
      max ss (min se (qs + ((900 - total : Int) : ℚ) * (3/2))) ∧
    (∀ quarters2 : List (Nat × ℚ), lookupAssoc quarters2 tq = none →
      initial_position quarters2 tq total ss se = (ss + se) / 2) ∧
    (find_exact_time_core oracle_at_2079 10000 [(2, 1500)] [] [] 2 514 1500
      4200 1).readings.head? = some (2079, 2, 514) := by
  refine ⟨?_, ?_, by decide⟩
  · simp only [initial_position, h]
    rw [if_pos h0]
  · intro quarters2 h2
    simp only [initial_position, h2]

attribute [local semireducible] Rat.add Rat.mul Rat.sub Rat.inv Rat.ofScientific in
/-- Claim C3 witness: the amended statement at the spec scenario
    quarter_starts = {2: 1500}, target 8:34. -/
theorem initial_guess_extrapolation_witness :
    lookupAssoc [((2 : Nat), (1500 : ℚ))] 2 = some 1500 ∧ (1500 : ℚ) ≠ 0 ∧
    initial_position [(2, 1500)] 2 514 1500 4200 =
      max 1500 (min 4200 (1500 + ((900 - 514 : Int) : ℚ) * (3/2))) :=
  ⟨by decide, by decide,
    (initial_guess_extrapolation [(2, 1500)] 2 514 1500 4200 1500 (by decide)
      (by decide)).1⟩

/-- Separation of two zones by more than the 10 s merge threshold, in either
    order. -/
def ZoneSep (z w : ℚ × ℚ) : Prop := z.2 + 10 < w.1 ∨ w.2 + 10 < z.1

/-- The dead-zone list invariant: sorted by interval start, every two
    consecutive intervals more than 10 s apart, all intervals well-formed. -/
def DeadZonesInv (l : List (ℚ × ℚ)) : Prop :=
  l.Pairwise (fun z w => z.1 ≤ w.1 ∧ z.2 + 10 < w.1) ∧ ∀ z ∈ l, z.1 ≤ z.2

/-- ZoneSep is symmetric. -/
theorem zone_sep_symm : Symmetric ZoneSep := by
  intro a b h
  rcases h with h | h
  · exact Or.inr h
  · exact Or.inl h

/-- A lower bound below the new zone's start and every scanned start stays
    below the merged zone's start. -/
theorem adz_merge_fst_left (c : ℚ) :
    ∀ (zones : List (ℚ × ℚ)) (nz : ℚ × ℚ), c < nz.1 → (∀ w ∈ zones, c < w.1) →
      c < (add_dead_zone_merge zones nz).1.1 := by
  intro zones
  induction zones with
  | nil => intro nz h _; simpa [add_dead_zone_merge] using h
  | cons z rest ih =>
    intro nz h hall
    simp only [add_dead_zone_merge]
    split
    · exact ih nz h (fun w hw => hall w (List.mem_cons_of_mem z hw))
    · exact ih (min z.1 nz.1, max z.2 nz.2)
        (lt_min (hall z (List.mem_cons_self z rest)) h)
        (fun w hw => hall w (List.mem_cons_of_mem z hw))

/-- The merged zone only grows. -/
theorem adz_merge_grow :
    ∀ (zones : List (ℚ × ℚ)) (nz : ℚ × ℚ),
      (add_dead_zone_merge zones nz).1.1 ≤ nz.1 ∧
      nz.2 ≤ (add_dead_zone_merge zones nz).1.2 := by
  intro zones
  induction zones with
  | nil => intro nz; simp [add_dead_zone_merge]
  | cons z rest ih =>
    intro nz
    simp only [add_dead_zone_merge]
    split
    · exact ih nz
    · exact ⟨le_trans (ih _).1 (min_le_right _ _),
        le_trans (le_max_right _ _) (ih _).2⟩

/-- The merged zone stays well-formed. -/
theorem adz_merge_wf :
    ∀ (zones : List (ℚ × ℚ)) (nz : ℚ × ℚ), (∀ z ∈ zones, z.1 ≤ z.2) → nz.1 ≤ nz.2 →
      (add_dead_zone_merge zones nz).1.1 ≤ (add_dead_zone_merge zones nz).1.2 := by
  intro zones
  induction zones with
  | nil => intro nz _ h; simpa [add_dead_zone_merge] using h
  | cons z rest ih =>
    intro nz hz h
    simp only [add_dead_zone_merge]
    split
    · exact ih nz (fun w hw => hz w (List.mem_cons_of_mem z hw)) h
    · exact ih _ (fun w hw => hz w (List.mem_cons_of_mem z hw))
        (le_trans (min_le_right _ _) (le_trans h (le_max_right _ _)))

/-- The kept zones are a sublist of the scanned zones. -/
theorem adz_merge_sublist :
    ∀ (zones : List (ℚ × ℚ)) (nz : ℚ × ℚ),
      (add_dead_zone_merge zones nz).2.Sublist zones := by
  intro zones
  induction zones with
  | nil => intro nz; simp [add_dead_zone_merge]
  | cons z rest ih =>
    intro nz
    simp only [add_dead_zone_merge]
    split
    · exact List.Sublist.cons₂ z (ih nz)
    · exact List.Sublist.cons z (ih _)

/-- When every scanned zone starts more than 10 s after the new zone ends,
    the scan keeps everything and the new zone is unchanged. -/
theorem adz_merge_pass :
    ∀ (zones : List (ℚ × ℚ)) (nz : ℚ × ℚ), (∀ w ∈ zones, nz.2 + 10 < w.1) →
      add_dead_zone_merge zones nz = (nz, zones) := by
  intro zones
  induction zones with
  | nil => intro nz _; rfl
  | cons z rest ih =>
    intro nz hall
    have hz := hall z (List.mem_cons_self z rest)
    simp only [add_dead_zone_merge]
    rw [if_pos (Or.inr (by linarith)), ih nz (fun w hw => hall w (List.mem_cons_of_mem z hw))]

/-- Every kept zone is more than 10 s away from the final merged zone. -/
theorem adz_merge_sep :
    ∀ (zones : List (ℚ × ℚ)) (nz : ℚ × ℚ),
      zones.Pairwise (fun z w => z.2 + 10 < w.1) → (∀ z ∈ zones, z.1 ≤ z.2) →
      nz.1 ≤ nz.2 →
      ∀ z ∈ (add_dead_zone_merge zones nz).2,
        ZoneSep z (add_dead_zone_merge zones nz).1 := by
  intro zones
  induction zones with
  | nil => intro nz _ _ _ z hz; simp [add_dead_zone_merge] at hz
  | cons z rest ih =>
    intro nz hp hwf hnz
    rw [List.pairwise_cons] at hp
    obtain ⟨hz_rest, hp_rest⟩ := hp
    have hzwf : z.1 ≤ z.2 := hwf z (List.mem_cons_self z rest)
    have hwf_rest : ∀ w ∈ rest, w.1 ≤ w.2 :=
      fun w hw => hwf w (List.mem_cons_of_mem z hw)
    simp only [add_dead_zone_merge]
    split
    case isTrue hcond =>
      intro y hy
      rcases List.mem_cons.mp hy with rfl | hy'
      · rcases hcond with h1 | h2
        · exact Or.inl (adz_merge_fst_left (y.2 + 10) rest nz (by linarith) hz_rest)
        · have hall : ∀ w ∈ rest, nz.2 + 10 < w.1 := by
            intro w hw
            have := hz_rest w hw
            linarith
          rw [adz_merge_pass rest nz hall]
          exact Or.inr h2
      · exact ih nz hp_rest hwf_rest hnz y hy'
    case isFalse hcond =>
      exact ih (min z.1 nz.1, max z.2 nz.2) hp_rest hwf_rest
        (le_trans (min_le_right _ _) (le_trans hnz (le_max_right _ _)))

/-- Insertion keeps the start-sorted order. -/
theorem sort_zones_insert_perm (z : ℚ × ℚ) :
    ∀ l : List (ℚ × ℚ), (sort_zones_insert z l).Perm (z :: l) := by
  intro l
  induction l with
  | nil => simp [sort_zones_insert]
  | cons w t ih =>
    simp only [sort_zones_insert]
    split
    · exact (ih.cons w).trans (List.Perm.swap z w t)
    · exact List.Perm.refl _

/-- sort_zones permutes its input. -/
theorem sort_zones_perm : ∀ l : List (ℚ × ℚ), (sort_zones l).Perm l := by
  intro l
  induction l with
  | nil => exact List.Perm.refl _
  | cons z t ih => exact (sort_zones_insert_perm z (sort_zones t)).trans (ih.cons z)

/-- Insertion preserves sortedness by start. -/
theorem sort_zones_insert_sorted (z : ℚ × ℚ) :
    ∀ l : List (ℚ × ℚ), l.Pairwise (fun a b => a.1 ≤ b.1) →
      (sort_zones_insert z l).Pairwise (fun a b => a.1 ≤ b.1) := by
  intro l
  induction l with
  | nil => intro _; exact List.pairwise_singleton _ z
  | cons w t ih =>
    intro hp
    rw [List.pairwise_cons] at hp
    obtain ⟨hw, hp'⟩ := hp
    simp only [sort_zones_insert]
    split
    case isTrue hle =>
      rw [List.pairwise_cons]
      refine ⟨?_, ih hp'⟩
      intro y hy
      rcases List.mem_cons.mp ((sort_zones_insert_perm z t).mem_iff.mp hy) with rfl | hy'
      · exact hle
      · exact hw y hy'
    case isFalse hle =>
      rw [List.pairwise_cons]
      refine ⟨?_, List.pairwise_cons.mpr ⟨hw, hp'⟩⟩
      intro y hy
      rcases List.mem_cons.mp hy with rfl | hy'
      · exact le_of_not_le hle
      · exact le_trans (le_of_not_le hle) (hw y hy')

/-- sort_zones sorts by start. -/
theorem sort_zones_sorted : ∀ l : List (ℚ × ℚ),
    (sort_zones l).Pairwise (fun a b => a.1 ≤ b.1) := by
  intro l
  induction l with
  | nil => exact List.Pairwise.nil
  | cons z t ih => exact sort_zones_insert_sorted z (sort_zones t) ih

/-- A start-sorted list of well-formed, pairwise separated zones satisfies
    the full invariant. -/
theorem pairwise_gap_of_sorted_sep :
    ∀ l : List (ℚ × ℚ), l.Pairwise (fun a b => a.1 ≤ b.1) → l.Pairwise ZoneSep →
      (∀ z ∈ l, z.1 ≤ z.2) →
      l.Pairwise (fun z w => z.1 ≤ w.1 ∧ z.2 + 10 < w.1) := by
  intro l
  induction l with
  | nil => intro _ _ _; exact List.Pairwise.nil
  | cons z t ih =>
    intro hs hsep hwf
    rw [List.pairwise_cons] at hs hsep ⊢
    refine ⟨?_, ih hs.2 hsep.2 (fun w hw => hwf w (List.mem_cons_of_mem z hw))⟩
    intro w hw
    refine ⟨hs.1 w hw, ?_⟩
    rcases hsep.1 w hw with h | h
    · exact h
    · exfalso
      have hwwf : w.1 ≤ w.2 := hwf w (List.mem_cons_of_mem z hw)
      have := hs.1 w hw
      linarith

/-- One add_dead_zone call preserves the invariant. -/
theorem add_dead_zone_preserves {zones : List (ℚ × ℚ)} {s e : ℚ}
    (hinv : DeadZonesInv zones) (hse : s ≤ e) :
    DeadZonesInv (add_dead_zone_list zones s e) := by
  obtain ⟨hpair, hwf⟩ := hinv
  have hgap : zones.Pairwise (fun z w => z.2 + 10 < w.1) :=
    hpair.imp (fun h => h.2)
  have hnzwf : ((s, e) : ℚ × ℚ).1 ≤ ((s, e) : ℚ × ℚ).2 := hse
  have hsub := adz_merge_sublist zones (s, e)
  have hkept_gap : (add_dead_zone_merge zones (s, e)).2.Pairwise
      (fun z w => z.2 + 10 < w.1) := hgap.sublist hsub
  have hkept_wf : ∀ z ∈ (add_dead_zone_merge zones (s, e)).2, z.1 ≤ z.2 :=
    fun z hz => hwf z (hsub.subset hz)
  have hnew_wf := adz_merge_wf zones (s, e) hwf hnzwf
  have hsep := adz_merge_sep zones (s, e) hgap hwf hnzwf
  have hcomb : ((add_dead_zone_merge zones (s, e)).2 ++
      [(add_dead_zone_merge zones (s, e)).1]).Pairwise ZoneSep := by
    rw [List.pairwise_append]
    refine ⟨hkept_gap.imp (fun h => Or.inl h), List.pairwise_singleton _ _, ?_⟩
    intro a ha b hb
    rw [List.mem_singleton] at hb
    subst hb
    exact hsep a ha
  have hcomb_wf : ∀ z ∈ (add_dead_zone_merge zones (s, e)).2 ++
      [(add_dead_zone_merge zones (s, e)).1], z.1 ≤ z.2 := by
    intro z hz
    rcases List.mem_append.mp hz with h | h
    · exact hkept_wf z h
    · rw [List.mem_singleton] at h
      subst h
      exact hnew_wf
  have hperm := sort_zones_perm ((add_dead_zone_merge zones (s, e)).2 ++
    [(add_dead_zone_merge zones (s, e)).1])
  have hsorted := sort_zones_sorted ((add_dead_zone_merge zones (s, e)).2 ++
    [(add_dead_zone_merge zones (s, e)).1])
  have hsep_sorted := (hperm.pairwise_iff (fun {a b} hh => zone_sep_symm hh)).mpr hcomb
  have hwf_sorted : ∀ z ∈ sort_zones ((add_dead_zone_merge zones (s, e)).2 ++
      [(add_dead_zone_merge zones (s, e)).1]), z.1 ≤ z.2 :=
    fun z hz => hcomb_wf z (hperm.mem_iff.mp hz)
  show DeadZonesInv (sort_zones ((add_dead_zone_merge zones (s, e)).2 ++
    [(add_dead_zone_merge zones (s, e)).1]))
  exact ⟨pairwise_gap_of_sorted_sep _ hsorted hsep_sorted hwf_sorted, hwf_sorted⟩

/-- Folding well-formed inserts preserves the invariant. -/
theorem dead_zones_foldl_inv :
    ∀ (ops : List (ℚ × ℚ)) (zones : List (ℚ × ℚ)), DeadZonesInv zones →
      (∀ p ∈ ops, p.1 ≤ p.2) →
      DeadZonesInv (ops.foldl (fun zs p => add_dead_zone_list zs p.1 p.2) zones) := by
  intro ops
  induction ops with
  | nil => intro zones h _; exact h
  | cons p rest ih =>
    intro zones h hall
    rw [List.foldl_cons]
    exact ih _ (add_dead_zone_preserves h (hall p (List.mem_cons_self p rest)))
      (fun q hq => hall q (List.mem_cons_of_mem p hq))

attribute [local semireducible] Rat.add Rat.mul Rat.sub Rat.inv Rat.ofScientific in
/-- Claim C7: starting from an empty index, after any sequence of well-formed
    add_dead_zone calls the dead_zones list is sorted by interval start with
    every two distinct intervals separated by strictly more than 10 s; in
    particular [100,150] then [145,200] merge to exactly [100,200], and a
    further [300,320] yields exactly [100,200], [300,320]. -/
theorem dead_zone_invariant (ops : List (ℚ × ℚ)) (h : ∀ p ∈ ops, p.1 ≤ p.2) :
    DeadZonesInv (ops.foldl (fun zs p => add_dead_zone_list zs p.1 p.2) []) ∧
    add_dead_zone_list (add_dead_zone_list [] 100 150) 145 200 = [(100, 200)] ∧
    add_dead_zone_list (add_dead_zone_list (add_dead_zone_list [] 100 150) 145 200)
      300 320 = [(100, 200), (300, 320)] := by
  refine ⟨dead_zones_foldl_inv ops [] ⟨List.Pairwise.nil, by simp⟩ h, by decide, by decide⟩

attribute [local semireducible] Rat.add Rat.mul Rat.sub Rat.inv Rat.ofScientific in
/-- Claim C7 witness: the invariant holds after the three inserts of the
    spec's scenario. -/
theorem dead_zone_invariant_witness :
    (∀ p ∈ [((100 : ℚ), (150 : ℚ)), (145, 200), (300, 320)], p.1 ≤ p.2) ∧
    DeadZonesInv ([((100 : ℚ), (150 : ℚ)), (145, 200), (300, 320)].foldl
      (fun zs p => add_dead_zone_list zs p.1 p.2) []) :=
  ⟨by decide, (dead_zone_invariant [((100 : ℚ), (150 : ℚ)), (145, 200), (300, 320)]
    (by decide)).1⟩

/-- After any non-tolerance exit, the loop returns the relaxed-return value
    of the final best match. -/
theorem fet_loop_nontol (ctx : FetCtx) :
    ∀ (fuel : Nat) (st : FetSt), (fet_loop ctx fuel st).reason ≠ .tolerance →
      (fet_loop ctx fuel st).result = relaxed_return (fet_loop ctx fuel st).best := by
  intro fuel
  induction fuel with
  | zero => intro st _; rfl
  | succ n ih =>
    intro st h
    rw [fet_loop] at h ⊢
    cases hit : fet_iter ctx st with
    | ret pos st1 =>
      try rw [hit] at h
      simp at h
    | brkConv st1 => rfl
    | brkStuck st1 => rfl
    | cont st1 =>
      rw [hit] at h
      exact ih st1 h

/-- A convergence break carries a trace satisfying the cluster condition. -/
theorem fet_iter_brkConv_cluster (ctx : FetCtx) (st st1 : FetSt)
    (h : fet_iter ctx st = .brkConv st1) : cluster_cond st1.readings = true := by
  simp only [fet_iter] at h
  split at h
  · exact absurd h (by simp)
  · split at h
    · exact absurd h (by simp)
    · split at h
      case isTrue hc =>
        cases h
        simpa using hc
      case isFalse hc =>
        split at h
        · exact absurd h (by simp)
        · exact absurd h (by simp)

/-- A converged loop exit satisfies the cluster condition and returns the
    relaxed value. -/
theorem fet_loop_converged (ctx : FetCtx) :
    ∀ (fuel : Nat) (st : FetSt), (fet_loop ctx fuel st).reason = .converged →
      cluster_cond (fet_loop ctx fuel st).readings = true ∧
      (fet_loop ctx fuel st).result = relaxed_return (fet_loop ctx fuel st).best := by
  intro fuel
  induction fuel with
  | zero => intro st h; simp [fet_loop, fet_finish] at h
  | succ n ih =>
    intro st h
    rw [fet_loop] at h ⊢
    cases hit : fet_iter ctx st with
    | ret pos st1 =>
      try rw [hit] at h
      simp at h
    | brkConv st1 =>
      exact ⟨fet_iter_brkConv_cluster ctx st st1 hit, rfl⟩
    | brkStuck st1 =>
      try rw [hit] at h
      simp [fet_finish] at h
    | cont st1 =>
      rw [hit] at h
      exact ih st1 h

attribute [local semireducible] Rat.add Rat.mul Rat.sub Rat.inv Rat.ofScientific in
/-- Claim C4 counterexample: a run whose last four recorded positions lie
    within a 15 s span with ≥ 3 distinct rounded values (the convergence
    condition) exits at current position 167.6 but returns 165 — the best
    match — not the current position the claim says it returns. -/
theorem converged_exit_cex :
    (find_exact_time_core oracle_cluster 10000 [] [] [] 1 600 0 200 1).reason =
      .converged ∧
    cluster_cond (find_exact_time_core oracle_cluster 10000 [] [] [] 1 600 0
      200 1).readings = true ∧
    (find_exact_time_core oracle_cluster 10000 [] [] [] 1 600 0 200 1).final_pos =
      167.6 ∧
    (find_exact_time_core oracle_cluster 10000 [] [] [] 1 600 0 200 1).result =
      some 165 ∧
    ¬ ((find_exact_time_core oracle_cluster 10000 [] [] [] 1 600 0 200 1).result =
        some (find_exact_time_core oracle_cluster 10000 [] [] [] 1 600 0 200
          1).final_pos) := by
  decide

/-- Claim C4 (amended): whenever the last 4 recorded positions cluster within
    a 15 s span with ≥ 3 distinct rounded values, the loop exits as
    converged; the value returned is then not the current position but the
    relaxed-return value — best_match when truthy with best diff ≤ 2 s,
    otherwise none. -/
theorem converged_exit_relaxed (oracle : ℚ → Option GameClock) (duration : ℚ)
    (quarters : List (Nat × ℚ)) (dead_zones : List (ℚ × ℚ))
    (known_frames : List (ℚ × Nat × String)) (tq : Nat) (total : Int)
    (ss se : ℚ) (tol : Int)
    (h : (find_exact_time_core oracle duration quarters dead_zones known_frames
      tq total ss se tol).reason = .converged) :
    cluster_cond (find_exact_time_core oracle duration quarters dead_zones
      known_frames tq total ss se tol).readings = true ∧
    (find_exact_time_core oracle duration quarters dead_zones known_frames
      tq total ss se tol).result =
      relaxed_return (find_exact_time_core oracle duration quarters dead_zones
        known_frames tq total ss se tol).best := by
  unfold find_exact_time_core at h ⊢
  exact fet_loop_converged _ 15 _ h

attribute [local semireducible] Rat.add Rat.mul Rat.sub Rat.inv Rat.ofScientific in
/-- Claim C4 witness: the amended statement instantiated at the clustering
    run. -/
theorem converged_exit_relaxed_witness :
    (find_exact_time_core oracle_cluster 10000 [] [] [] 1 600 0 200 1).reason =
      .converged ∧
    (cluster_cond (find_exact_time_core oracle_cluster 10000 [] [] [] 1 600 0
      200 1).readings = true ∧
     (find_exact_time_core oracle_cluster 10000 [] [] [] 1 600 0 200 1).result =
      relaxed_return (find_exact_time_core oracle_cluster 10000 [] [] [] 1 600
        0 200 1).best) :=
  ⟨by decide, converged_exit_relaxed oracle_cluster 10000 [] [] [] 1 600 0 200 1
    (by decide)⟩

attribute [local semireducible] Rat.add Rat.mul Rat.sub Rat.inv Rat.ofScientific in
/-- Claim C5 counterexample: with tolerance_seconds = 3, a search ending with
    best diff 5 — within the claimed relaxed bound 2·tolerance = 6 — still
    returns none: the code's bound is the fixed constant 2, it does not scale
    with the tolerance. -/
theorem relaxed_bound_cex :
    (find_exact_time_core oracle_const_605 10000 [] [] [] 1 600 0 200 3).reason ≠
      .tolerance ∧
    (find_exact_time_core oracle_const_605 10000 [] [] [] 1 600 0 200 3).best =
      some (100, 5) ∧
    (5 : Int) ≤ 2 * 3 ∧
    (find_exact_time_core oracle_const_605 10000 [] [] [] 1 600 0 200 3).result =
      none := by
  decide

/-- Claim C5 (amended): when find_exact_time terminates without a
    tolerance-exact return, it returns the running best_match exactly when
    best_match is truthy (nonzero) and the best diff is within the fixed
    bound of 2 seconds, independent of tolerance_seconds; otherwise none. -/
theorem relaxed_bound_fixed (oracle : ℚ → Option GameClock) (duration : ℚ)
    (quarters : List (Nat × ℚ)) (dead_zones : List (ℚ × ℚ))
    (known_frames : List (ℚ × Nat × String)) (tq : Nat) (total : Int)
    (ss se : ℚ) (tol : Int)
    (h : (find_exact_time_core oracle duration quarters dead_zones known_frames
      tq total ss se tol).reason ≠ .tolerance) :
    (find_exact_time_core oracle duration quarters dead_zones known_frames
      tq total ss se tol).result =
      relaxed_return (find_exact_time_core oracle duration quarters dead_zones
        known_frames tq total ss se tol).best ∧
    (∀ p : ℚ × Int,
      (find_exact_time_core oracle duration quarters dead_zones known_frames
        tq total ss se tol).best = some p →
      ((find_exact_time_core oracle duration quarters dead_zones known_frames
        tq total ss se tol).result = some p.1 ↔ p.1 ≠ 0 ∧ p.2 ≤ 2)) := by
  have h1 : (find_exact_time_core oracle duration quarters dead_zones
      known_frames tq total ss se tol).result =
      relaxed_return (find_exact_time_core oracle duration quarters dead_zones
        known_frames tq total ss se tol).best := by
    unfold find_exact_time_core at h ⊢
    exact fet_loop_nontol _ 15 _ h
  refine ⟨h1, ?_⟩
  intro p hp
  constructor
  · intro hres
    by_cases hc : p.1 ≠ 0 ∧ p.2 ≤ 2
    · exact hc
    · rw [h1, hp] at hres
      simp only [relaxed_return] at hres
      rw [if_neg hc] at hres
      cases hres
  · intro hc
    rw [h1, hp]
    simp only [relaxed_return]
    rw [if_pos hc]

attribute [local semireducible] Rat.add Rat.mul Rat.sub Rat.inv Rat.ofScientific in
/-- Claim C5 witness: the amended statement instantiated at the
    tolerance-3 run with best diff 5. -/
theorem relaxed_bound_fixed_witness :
    (find_exact_time_core oracle_const_605 10000 [] [] [] 1 600 0 200 3).reason ≠
      .tolerance ∧
    ((find_exact_time_core oracle_const_605 10000 [] [] [] 1 600 0 200 3).result =
      relaxed_return (find_exact_time_core oracle_const_605 10000 [] [] [] 1 600
        0 200 3).best ∧
     (∀ p : ℚ × Int,
       (find_exact_time_core oracle_const_605 10000 [] [] [] 1 600 0 200 3).best =
        some p →
       ((find_exact_time_core oracle_const_605 10000 [] [] [] 1 600 0 200
          3).result = some p.1 ↔ p.1 ≠ 0 ∧ p.2 ≤ 2))) :=
  ⟨by decide, relaxed_bound_fixed oracle_const_605 10000 [] [] [] 1 600 0 200 3
    (by decide)⟩

/-- The fvt_branch projections (returned value and call count) depend only on
    the result's returned value and call count, not the index component. -/
theorem fvt_branch_proj (q : Nat) (t : String) (a b : Option ℚ × VideoIndex × Nat)
    (h1 : a.1 = b.1) (h2 : a.2.2 = b.2.2) :
    (fvt_branch q t a).1 = (fvt_branch q t b).1 ∧
    (fvt_branch q t a).2.2 = (fvt_branch q t b).2.2 := by
  unfold fvt_branch
  rw [h1, h2]
  cases hb : b.1 with
  | none => exact ⟨rfl, rfl⟩
  | some w => by_cases hw : w ≠ 0 <;> simp [hw]

/-- A truthy cached mapping is returned directly with zero oracle calls. -/
theorem fvt_cache_hit (oracle : ℚ → Option GameClock) (duration : ℚ)
    (idx2 : VideoIndex) (q : Nat) (t : String) (rg : ℚ × ℚ) (w : ℚ)
    (hidx2 : is_indexed idx2.data = true)
    (hqr : get_quarter_range idx2.data q = some rg)
    (hm : get_mapping idx2.data q t = some w) (hw : w ≠ 0) :
    find_vod_timestamp oracle duration idx2 q t = (.ok w, idx2, 0) := by
  rw [find_vod_timestamp, if_pos hidx2, hqr, hm]
  show (if w ≠ 0 then ((Except.ok w : Except PyError ℚ), idx2, 0)
      else fvt_search oracle duration idx2 q t rg.1 rg.2) =
    ((Except.ok w : Except PyError ℚ), idx2, 0)
  rw [if_pos hw]

/-- The search branch caches a truthy result, so an immediate second call is
    a pure cache hit. -/
theorem fvt_search_post (oracle : ℚ → Option GameClock) (duration : ℚ)
    (idx : VideoIndex) (q : Nat) (t : String) (rg : ℚ × ℚ) (v : ℚ)
    (idx2 : VideoIndex) (n : Nat) (hidx : is_indexed idx.data = true)
    (hqr : get_quarter_range idx.data q = some rg)
    (h : fvt_search oracle duration idx q t rg.1 rg.2 = (.ok v, idx2, n)) :
    find_vod_timestamp oracle duration idx2 q t = (.ok v, idx2, 0) := by
  unfold fvt_search at h
  generalize hfe : find_exact_time oracle duration idx q t rg.1 rg.2 1 = fer at h
  unfold fvt_branch at h
  split at h
  · rename_i w hf
    split at h
    case isTrue hw0 =>
      simp only [Prod.mk.injEq, Except.ok.injEq] at h
      obtain ⟨hv, hi, _⟩ := h
      subst hv
      have hq2 : idx2.data.quarters = idx.data.quarters := by
        rw [← hi, ← hfe]
        rfl
      have hm2 : get_mapping idx2.data q t = some w := by
        rw [← hi]
        exact get_mapping_set_mapping _ q t w
      have hidx2 : is_indexed idx2.data = true := by
        rw [is_indexed_congr hq2]
        exact hidx
      have hqr2 : get_quarter_range idx2.data q = some rg := by
        rw [get_quarter_range_congr hq2 q]
        exact hqr
      exact fvt_cache_hit oracle duration idx2 q t rg w hidx2 hqr2 hm2 hw0
    case isFalse hw0 => exact absurd h (by simp)
  · exact absurd h (by simp)

/-- Claim C8: whenever find_vod_timestamp returns an offset v, calling it
    again with the same arguments on the resulting index performs zero oracle
    calls and returns the identical offset v (the mapping cached by the first
    call, or already present, is a truthy cache hit). -/
theorem find_vod_timestamp_idempotent (oracle : ℚ → Option GameClock)
    (duration : ℚ) (idx : VideoIndex) (q : Nat) (t : String) (v : ℚ)
    (idx2 : VideoIndex) (n : Nat)
    (h : find_vod_timestamp oracle duration idx q t = (.ok v, idx2, n)) :
    find_vod_timestamp oracle duration idx2 q t = (.ok v, idx2, 0) := by
  unfold find_vod_timestamp at h
  split at h
  case isTrue hidx =>
    split at h
    · exact absurd h (by simp)
    · rename_i rg hqr
      split at h
      · rename_i cached hc
        split at h
        case isTrue hc0 =>
          simp only [Prod.mk.injEq, Except.ok.injEq] at h
          obtain ⟨hv, hi, _⟩ := h
          subst hv
          subst hi
          exact fvt_cache_hit oracle duration idx q t rg cached hidx hqr hc hc0
        case isFalse hc0 =>
          exact fvt_search_post oracle duration idx q t rg v idx2 n hidx hqr h
      · exact fvt_search_post oracle duration idx q t rg v idx2 n hidx hqr h
  case isFalse hidx => exact absurd h (by simp)

attribute [local semireducible] Rat.add Rat.mul Rat.sub Rat.inv Rat.ofScientific in
/-- Claim C8 witness: resolving Q1 15:00 against an index knowing Q1 starts
    at 50 s returns offset 50 after one oracle call; the repeat call on the
    resulting index returns 50 with zero oracle calls. -/
theorem find_vod_timestamp_idempotent_witness :
    find_vod_timestamp oracle_q900 10000
      (find_vod_timestamp oracle_q900 10000 index_q1_50 1 "15:00").2.1 1 "15:00" =
      (.ok 50, (find_vod_timestamp oracle_q900 10000 index_q1_50 1 "15:00").2.1, 0) :=
  find_vod_timestamp_idempotent oracle_q900 10000 index_q1_50 1 "15:00" 50
    (find_vod_timestamp oracle_q900 10000 index_q1_50 1 "15:00").2.1 1 (by decide)

/-- The index with the mapping for (q, t) removed: used to compare a cached
    0.0 against a genuinely absent cache entry. -/
def erase_mapping (idx : VideoIndex) (q : Nat) (t : String) : VideoIndex :=
  { idx with data := { idx.data with mappings :=
      (idx.data.mappings.filter (fun kv => decide (kv.1 ≠ make_key q t))) } }

/-- The erased mapping is absent. -/
theorem get_mapping_erase (idx : VideoIndex) (q : Nat) (t : String) :
    get_mapping (erase_mapping idx q t).data q t = none :=
  lookupAssoc_filter_ne _ _

/-- find_exact_time reads the index only through quarters, dead_zones and
    known_frames; its returned offset and oracle-call count ignore
    mappings. -/
theorem find_exact_time_mappings_congr (oracle : ℚ → Option GameClock)
    (duration : ℚ) (idx idx' : VideoIndex) (tq : Nat) (tt : String)
    (ss se : ℚ) (tol : Int)
    (hq : idx.data.quarters = idx'.data.quarters)
    (hd : idx.data.dead_zones = idx'.data.dead_zones)
    (hk : idx.data.known_frames = idx'.data.known_frames) :
    (find_exact_time oracle duration idx tq tt ss se tol).1 =
      (find_exact_time oracle duration idx' tq tt ss se tol).1 ∧
    (find_exact_time oracle duration idx tq tt ss se tol).2.2 =
      (find_exact_time oracle duration idx' tq tt ss se tol).2.2 := by
  unfold find_exact_time
  rw [hq, hd, hk]
  exact ⟨rfl, rfl⟩

/-- fvt_search's returned value and oracle-call count ignore mappings. -/
theorem fvt_search_mappings_congr (oracle : ℚ → Option GameClock)
    (duration : ℚ) (idx idx' : VideoIndex) (q : Nat) (t : String) (bs be : ℚ)
    (hq : idx.data.quarters = idx'.data.quarters)
    (hd : idx.data.dead_zones = idx'.data.dead_zones)
    (hk : idx.data.known_frames = idx'.data.known_frames) :
    (fvt_search oracle duration idx q t bs be).1 =
      (fvt_search oracle duration idx' q t bs be).1 ∧
    (fvt_search oracle duration idx q t bs be).2.2 =
      (fvt_search oracle duration idx' q t bs be).2.2 := by
  obtain ⟨h1, h2⟩ := find_exact_time_mappings_congr oracle duration idx idx' q t
    bs be 1 hq hd hk
  unfold fvt_search
  exact fvt_branch_proj q t _ _ h1 h2

/-- Claim C10: a stored offset of exactly 0.0 is falsy at the public
    interface — a cached resolved mapping equal to 0.0 makes
    find_vod_timestamp behave (returned value and oracle-call count) exactly
    as if the mapping were absent, re-running the full search instead of
    returning the cache hit; and a known quarter start equal to 0.0 makes the
    initial guess fall back to the window midpoint instead of extrapolating. -/
theorem zero_offset_treated_absent (oracle : ℚ → Option GameClock)
    (duration : ℚ) (idx : VideoIndex) (q : Nat) (t : String)
    (quarters : List (Nat × ℚ)) (tq : Nat) (total : Int) (ss se : ℚ)
    (h0 : get_mapping idx.data q t = some 0)
    (hq0 : lookupAssoc quarters tq = some 0) :
    ((find_vod_timestamp oracle duration idx q t).1 =
      (find_vod_timestamp oracle duration (erase_mapping idx q t) q t).1 ∧
     (find_vod_timestamp oracle duration idx q t).2.2 =
      (find_vod_timestamp oracle duration (erase_mapping idx q t) q t).2.2) ∧
    initial_position quarters tq total ss se = (ss + se) / 2 := by
  constructor
  · have hqe : idx.data.quarters = (erase_mapping idx q t).data.quarters := rfl
    have hde : idx.data.dead_zones = (erase_mapping idx q t).data.dead_zones := rfl
    have hke : idx.data.known_frames = (erase_mapping idx q t).data.known_frames := rfl
    by_cases hidx : is_indexed idx.data = true
    · have hidx' : is_indexed (erase_mapping idx q t).data = true := by
        rw [← is_indexed_congr hqe]
        exact hidx
      rw [find_vod_timestamp, find_vod_timestamp, if_pos hidx, if_pos hidx',
        ← get_quarter_range_congr hqe q, h0, get_mapping_erase]
      cases hqr : get_quarter_range idx.data q with
      | none => exact ⟨rfl, rfl⟩
      | some rg =>
        show ((if (0 : ℚ) ≠ 0 then ((Except.ok (0 : ℚ) : Except PyError ℚ), idx, 0)
            else fvt_search oracle duration idx q t rg.1 rg.2).1 =
          (fvt_search oracle duration (erase_mapping idx q t) q t rg.1 rg.2).1) ∧
          ((if (0 : ℚ) ≠ 0 then ((Except.ok (0 : ℚ) : Except PyError ℚ), idx, 0)
            else fvt_search oracle duration idx q t rg.1 rg.2).2.2 =
          (fvt_search oracle duration (erase_mapping idx q t) q t rg.1 rg.2).2.2)
        rw [if_neg (by simp)]
        exact fvt_search_mappings_congr oracle duration idx (erase_mapping idx q t)
          q t rg.1 rg.2 hqe hde hke
    · have hidx' : ¬ is_indexed (erase_mapping idx q t).data = true := by
        rw [← is_indexed_congr hqe]
        exact hidx
      rw [find_vod_timestamp, find_vod_timestamp, if_neg hidx, if_neg hidx']
      exact ⟨rfl, rfl⟩
  · simp only [initial_position, hq0]
    rw [if_neg (by simp)]

attribute [local semireducible] Rat.add Rat.mul Rat.sub Rat.inv Rat.ofScientific in
/-- Claim C10 witness: an index caching Q1 15:00 at offset exactly 0.0
    searches again just as if the mapping were absent (same returned offset
    100 and same single oracle call), and a quarter start of 0.0 gives the
    midpoint initial guess. -/
theorem zero_offset_treated_absent_witness :
    get_mapping index_cached_zero.data 1 "15:00" = some 0 ∧
    lookupAssoc [((1 : Nat), (0 : ℚ))] 1 = some 0 ∧
    (((find_vod_timestamp oracle_q900 10000 index_cached_zero 1 "15:00").1 =
       (find_vod_timestamp oracle_q900 10000
         (erase_mapping index_cached_zero 1 "15:00") 1 "15:00").1 ∧
      (find_vod_timestamp oracle_q900 10000 index_cached_zero 1 "15:00").2.2 =
       (find_vod_timestamp oracle_q900 10000
         (erase_mapping index_cached_zero 1 "15:00") 1 "15:00").2.2) ∧
     initial_position [((1 : Nat), (0 : ℚ))] 1 600 0 200 = (0 + 200) / 2) :=
  ⟨by decide, by decide,
    zero_offset_treated_absent oracle_q900 10000 index_cached_zero 1 "15:00"
      [((1 : Nat), (0 : ℚ))] 1 600 0 200 (by decide) (by decide)⟩

attribute [local semireducible] Rat.add Rat.mul Rat.sub Rat.inv Rat.ofScientific in
/-- Claim C1 counterexample: a two-request batch whose first request fails to
    resolve is aborted whole — get_clips raises the ValueError and produces
    no per-item results at all, rather than a per-item failure marker with
    continued resolution. -/
theorem get_clips_abort_cex :
    (get_clips oracle_none 500 "game.mp4" empty_index [ts_q1_1500, ts_q2_834] 15).1 =
      .error (.valueError "No index found. Run auto_index first.") ∧
    ∀ l, (get_clips oracle_none 500 "game.mp4" empty_index [ts_q1_1500, ts_q2_834]
      15).1 ≠ .ok l := by
  refine ⟨by decide, ?_⟩
  intro l hl
  rw [show (get_clips oracle_none 500 "game.mp4" empty_index [ts_q1_1500, ts_q2_834]
    15).1 = .error (.valueError "No index found. Run auto_index first.") by decide] at hl
  exact Except.noConfusion hl

/-- Claim C1 (amended): get_clips has no per-item failure isolation — for a
    non-empty batch it never returns a clip list, and a resolution failure on
    the first request propagates as the result of the whole call, aborting
    the batch. -/
theorem get_clips_no_batch_isolation (oracle : ℚ → Option GameClock)
    (duration : ℚ) (vp : String) (idx : VideoIndex) (ts : List GameTimestamp)
    (pb : ℚ) (h : ts ≠ []) :
    (∀ l, (get_clips oracle duration vp idx ts pb).1 ≠ .ok l) ∧
    (∀ t rest e, ts = t :: rest →
      (find_vod_timestamp oracle duration (pre_index oracle duration idx).1
        t.quarter t.time).1 = .error e →
      (get_clips oracle duration vp idx ts pb).1 = .error e) := by
  cases ts with
  | nil => exact absurd rfl h
  | cons t rest =>
    unfold get_clips
    generalize hp : pre_index oracle duration idx = p
    simp only [get_clips_loop]
    generalize hr : find_vod_timestamp oracle duration p.1 t.quarter t.time = fvr
    constructor
    · intro l
      cases hv : fvr.1 with
      | error e => simp [hv]
      | ok v => simp [hv]
    · intro t' rest' e heq he
      injection heq with ht hrest
      subst ht
      subst hrest
      rw [hr] at he
      simp [he]

attribute [local semireducible] Rat.add Rat.mul Rat.sub Rat.inv Rat.ofScientific in
/-- Claim C1 witness: the amended statement instantiated at a concrete
    two-request batch whose first resolution fails. -/
theorem get_clips_no_batch_isolation_witness :
    ([ts_q1_1500, ts_q2_834] ≠ ([] : List GameTimestamp)) ∧
    (get_clips oracle_none 500 "game.mp4" empty_index [ts_q1_1500, ts_q2_834] 15).1 =
      .error (.valueError "No index found. Run auto_index first.") :=
  ⟨by decide, (get_clips_no_batch_isolation oracle_none 500 "game.mp4" empty_index
      [ts_q1_1500, ts_q2_834] 15 (by decide)).2 ts_q1_1500 [ts_q2_834]
      (.valueError "No index found. Run auto_index first.") rfl (by decide)⟩

attribute [local semireducible] Rat.add Rat.mul Rat.sub Rat.inv Rat.ofScientific in
/-- Claim C2 counterexample: with a blind oracle and an unindexed video, a
    non-empty batch raises ValueError from the resolution step, not a
    NameError — so not every non-empty batch raises NameError. -/
theorem get_clips_error_kind_cex :
    (get_clips oracle_none 500 "game.mp4" empty_index [ts_q2_834] 15).1 =
      .error (.valueError "No index found. Run auto_index first.") ∧
    ∀ m, (.error (.valueError "No index found. Run auto_index first.") :
      Except PyError (List ClipTimestamp)) ≠ .error (.nameError m) := by
  refine ⟨by decide, ?_⟩
  intro m hm
  injection hm with he
  exact PyError.noConfusion he

/-- Claim C2 (amended): get_clips reads the local pd before its first
    assignment, so a non-empty batch never yields a clip list: whenever the
    first request's resolution succeeds, the call dies with the NameError
    while computing the first clip's duration. -/
theorem get_clips_pd_unbound (oracle : ℚ → Option GameClock) (duration : ℚ)
    (vp : String) (idx : VideoIndex) (t : GameTimestamp)
    (rest : List GameTimestamp) (pb : ℚ) (v : ℚ)
    (h : (find_vod_timestamp oracle duration (pre_index oracle duration idx).1
      t.quarter t.time).1 = .ok v) :
    (get_clips oracle duration vp idx (t :: rest) pb).1 =
      .error (.nameError "local variable pd referenced before assignment") ∧
    ∀ l, (get_clips oracle duration vp idx (t :: rest) pb).1 ≠ .ok l := by
  revert h
  unfold get_clips
  generalize hp : pre_index oracle duration idx = p
  simp only [get_clips_loop]
  generalize hr : find_vod_timestamp oracle duration p.1 t.quarter t.time = fvr
  intro h
  constructor
  · simp [h]
  · intro l
    simp [h]

attribute [local semireducible] Rat.add Rat.mul Rat.sub Rat.inv Rat.ofScientific in
/-- Claim C2 witness: a resolvable single-request batch dies with the
    NameError while computing the first clip's duration. -/
theorem get_clips_pd_unbound_witness :
    (find_vod_timestamp oracle_q900 10000
      (pre_index oracle_q900 10000 index_q1_100).1 1 "15:00").1 = .ok 100 ∧
    ((get_clips oracle_q900 10000 "game.mp4" index_q1_100 [ts_q1_1500] 15).1 =
      .error (.nameError "local variable pd referenced before assignment") ∧
     ∀ l, (get_clips oracle_q900 10000 "game.mp4" index_q1_100 [ts_q1_1500] 15).1 ≠
      .ok l) :=
  ⟨by decide, get_clips_pd_unbound oracle_q900 10000 "game.mp4" index_q1_100
    ts_q1_1500 [] 15 100 (by decide)⟩
